import Mathlib

/-!
# Resource Discovery & Safe Reclamation Engine — verification development

A shallow embedding of the engine's core (the `scan-nodemodules`,
`delete-nodemodule`, `delete-old-nodemodules` IPC handlers and the
disk-stats cache of the Electron main process, plus the extracted
utility functions of `utils.js`), with theorems settling the spec's
claims about it.

Modelling conventions:
* JS strings are modelled as Lean `String`s, with all computation done on
  their `List Char` representation (`String.data`) so that every operation
  reduces in the kernel.
* JS numbers are modelled as `Int` where every value reaching the code is
  an integer (byte counts, epoch milliseconds/seconds, counters); the one
  place a fractional value arises (`parseSizeToBytes`) uses `ℚ`.  All
  concrete values appearing in the claims are exactly representable as
  IEEE doubles, so exact arithmetic coincides with JS arithmetic there.
* External process execution (`execAsync`) is modelled by an oracle
  argument: each call site receives the outcome of its probe as a value
  (`Option`/`Except`/a dedicated result type), `none`/`error` standing for
  a rejected promise (non-zero exit, timeout).  The number of destructive
  probes issued is returned explicitly where a claim is about it.
-/

/-! ## JS string primitives (exact models of the operations the code uses) -/

/-- Boolean prefix test on character lists (model of the JS
`String.prototype.startsWith` used by the dedup loop). -/
def listIsPrefixOf : List Char → List Char → Bool
  | [], _ => true
  | _ :: _, [] => false
  | x :: xs, y :: ys => x == y && listIsPrefixOf xs ys

/-- Boolean infix test on character lists. -/
def listIsInfixOf (sub : List Char) : List Char → Bool
  | [] => listIsPrefixOf sub []
  | a :: t => listIsPrefixOf sub (a :: t) || listIsInfixOf sub t

/-- Model of JS `s.includes(sub)` (substring containment). -/
def jsIncludes (s sub : String) : Bool := listIsInfixOf sub.data s.data

/-- Model of JS `s.startsWith(pre)`. -/
def jsStartsWith (s pre : String) : Bool := listIsPrefixOf pre.data s.data

/-- Boolean suffix test (for the `/\/node_modules$/` replace). -/
def listIsSuffixOf (sub l : List Char) : Bool :=
  listIsPrefixOf sub.reverse l.reverse

/-- Numeric value of a digit run (most significant first). -/
def digitsToNat (cs : List Char) : Nat :=
  cs.foldl (fun a c => a * 10 + (c.toNat - 48)) 0

/-- Trim leading and trailing whitespace of a character list
(model of JS `String.prototype.trim` on the ASCII outputs of `du`/`stat`). -/
def trimChars (cs : List Char) : List Char :=
  ((cs.dropWhile Char.isWhitespace).reverse.dropWhile Char.isWhitespace).reverse

/-- Model of JS `s.trim().split(/\s+/)[0]`: the first whitespace-delimited
token of `s` (empty when `s` is all whitespace). -/
def firstToken (s : String) : String :=
  String.mk ((trimChars s.data).takeWhile (fun c => !c.isWhitespace))

/-- Model of JS `parseInt(s) || 0` on the decimal outputs the code parses:
skip leading whitespace, optional sign, then the leading digit run; when no
digit is found `parseInt` yields `NaN` and `|| 0` turns it into `0` (a
`parseInt` result of `0` is likewise mapped to `0` by `|| 0`). -/
def jsParseIntOrZero (s : String) : Int :=
  let cs := s.data.dropWhile Char.isWhitespace
  let signed : Int × List Char :=
    match cs with
    | '-' :: r => (-1, r)
    | '+' :: r => (1, r)
    | _ => (1, cs)
  let ds := signed.2.takeWhile Char.isDigit
  if ds.isEmpty then 0 else signed.1 * (digitsToNat ds : Int)

/-- Model of JS `s.split(sep)` for a one-character separator. -/
def splitChars (sep : Char) : List Char → List (List Char)
  | [] => [[]]
  | c :: t =>
    if c == sep then [] :: splitChars sep t
    else
      match splitChars sep t with
      | [] => [[c]]
      | h :: r => (c :: h) :: r

/-! ## utils.js -/

/-- `utils.js` `isValidNodeModulesPath`: the path must contain the
`node_modules` marker and no `..` segment (non-string/empty inputs are
rejected; an empty string contains neither substring, so the string case
is fully captured). -/
def isValidNodeModulesPath (p : String) : Bool :=
  !p.data.isEmpty && (jsIncludes p "node_modules" && !jsIncludes p "..")

/-- `utils.js` `calculateDaysAgo`: `0` for the `0` sentinel (JS
`!timestamp`), otherwise `Math.floor((nowMs − timestamp*1000) / 86400000)`.
`nowMs` is `Date.now()` in milliseconds, `ts` the probed epoch seconds. -/
def calculateDaysAgo (nowMs ts : Int) : Int :=
  if ts = 0 then 0 else Int.fdiv (nowMs - ts * 1000) 86400000

/-- The inline days-ago computation of the `scan-nodemodules` handler:
`Math.floor((now − new Date(ts*1000)) / 86400000)` with NO guard on the
`0` sentinel (unlike `calculateDaysAgo` above). -/
def scanDaysAgo (nowMs ts : Int) : Int :=
  Int.fdiv (nowMs - ts * 1000) 86400000

/-- `utils.js` / main-process `shouldExcludePath` test, and the guard of the
`scan-nodemodules` dedup loop: exclude a candidate already seen or nested
inside a seen path (`p.startsWith(seen + "/")`). -/
def shouldExcludePath (p : String) (seenPaths : List String) : Bool :=
  p.data.isEmpty || (seenPaths.contains p
    || seenPaths.any (fun seen => jsStartsWith p (seen ++ "/")))

/-! ## formatBytes (integer-exact model)

`formatBytes` is only ever called on integer byte counts (`sizeKB * 1024`,
sums of such, `total * 1024`), on which JS double arithmetic is exact, so
it is embedded over `Int`.  `x.toFixed(d)` picks the integer `n` with
`n / 10^d` closest to `x`, the larger `n` on ties; for `x = a/b ≥ 0` that
is `⌊(10^d · a)/b + 1/2⌋`, computed below by integer floor division. -/

/-- `(a / b).toFixed(0)` for `a ≥ 0`, `b > 0`, rendered as a string. -/
def toFixed0Frac (a b : Int) : String :=
  toString (Int.fdiv (2 * a + b) (2 * b))

/-- `(a / b).toFixed(1)` for `a ≥ 0`, `b > 0`, rendered as a string. -/
def toFixed1Frac (a b : Int) : String :=
  let n := Int.fdiv (20 * a + b) (2 * b)
  toString (Int.fdiv n 10) ++ "." ++ toString (Int.emod n 10)

/-- `utils.js` `formatBytes` (the main process carries an identical copy):
`"0B"` for negative input, plain bytes below 1 KiB, then KB / MB / GB with
0, 1 and 1 decimal places. -/
def formatBytes (bytes : Int) : String :=
  if bytes < 0 then "0B"
  else if bytes < 1024 then toString bytes ++ "B"
  else if bytes < 1024 ^ 2 then toFixed0Frac bytes 1024 ++ "KB"
  else if bytes < 1024 ^ 3 then toFixed1Frac bytes (1024 ^ 2) ++ "MB"
  else toFixed1Frac bytes (1024 ^ 3) ++ "GB"

/-! ## parseSizeToBytes -/

/-- Match of the regex `^([\d.]+)([KMGT]?)i?B?$/i`: the greedy numeric part
(digits and dots), an optional unit letter (returned upper-cased, as by
`toUpperCase`), an optional `i`, an optional `B`, end of string.  `none`
when the string does not match (the source then returns `0`). -/
def matchSizeRegex (cs : List Char) : Option (List Char × Option Char) :=
  let numPart := cs.takeWhile (fun c => c.isDigit || c == '.')
  if numPart.isEmpty then none
  else
    let rest0 := cs.drop numPart.length
    let unitSplit : Option Char × List Char :=
      match rest0 with
      | c :: r =>
        if c == 'K' || c == 'k' then (some 'K', r)
        else if c == 'M' || c == 'm' then (some 'M', r)
        else if c == 'G' || c == 'g' then (some 'G', r)
        else if c == 'T' || c == 't' then (some 'T', r)
        else (none, c :: r)
      | [] => (none, [])
    let rest1 :=
      match unitSplit.2 with
      | c :: r => if c == 'i' || c == 'I' then r else c :: r
      | [] => []
    let rest2 :=
      match rest1 with
      | c :: r => if c == 'B' || c == 'b' then r else c :: r
      | [] => []
    if rest2.isEmpty then some (numPart, unitSplit.1) else none

/-- `parseFloat` on a `[\d.]+` capture (no sign or exponent can occur):
the leading digit run, then an optional `.` and a second digit run; later
characters (a second dot and beyond) are ignored.  `none` models the `NaN`
result when no digit is found.  Returns (integer part, fraction digits
value, fraction digit count). -/
def jsParseFloatParts (cs : List Char) : Option (Nat × Nat × Nat) :=
  let intPart := cs.takeWhile Char.isDigit
  let rest := cs.drop intPart.length
  let fracPart :=
    match rest with
    | '.' :: r => r.takeWhile Char.isDigit
    | _ => []
  if intPart.isEmpty && fracPart.isEmpty then none
  else some (digitsToNat intPart, digitsToNat fracPart, fracPart.length)

/-- The `multipliers` table (`'' → 1` is the no-unit case). -/
def unitMultiplier : Option Char → ℚ
  | some 'K' => 1024
  | some 'M' => 1024 ^ 2
  | some 'G' => 1024 ^ 3
  | some 'T' => 1024 ^ 4
  | _ => 1

/-- `utils.js` `parseSizeToBytes`: `0` when the regex does not match,
otherwise `parseFloat(numPart) * multiplier`.  The value is the exact
rational; `none` models the `NaN` result (numeric part without digits,
e.g. `".."`).  All values in the claims are exactly representable as
doubles, so exact arithmetic coincides with JS arithmetic on them. -/
def parseSizeToBytes (size : String) : Option ℚ :=
  match matchSizeRegex size.data with
  | none => some 0
  | some (numPart, unit) =>
    match jsParseFloatParts numPart with
    | none => none
    | some (ip, fv, fl) =>
      some (((ip : ℚ) + (fv : ℚ) / (10 : ℚ) ^ fl) * unitMultiplier unit)

/-! ## Path Catalog: the `scan-nodemodules` dedup loop

The handler iterates over the `find` output lines of all search roots in
order, keeping a path unless it was already seen or is nested inside an
already-seen path (`p.startsWith(seen + "/")`).  `seenPaths` is a JS `Set`
iterated in insertion order, modelled by a duplicate-free list. -/

/-- One iteration of the dedup loop: skip `p` if already accumulated or
nested inside an accumulated path, else append it. -/
def dedupStep (seen : List String) (p : String) : List String :=
  if seen.contains p then seen
  else if seen.any (fun s => jsStartsWith p (s ++ "/")) then seen
  else seen ++ [p]

/-- The full dedup pass over the concatenated `find` outputs (in the order
the handler encounters them). -/
def dedupPaths (ps : List String) : List String := ps.foldl dedupStep []

/-! ## Size & Age Prober and result assembly -/

/-- One entry of the `scan-nodemodules` result (the object literal built by
the handler).  The `lastAccess` locale-formatted date string is not
modelled (locale-dependent presentation only). -/
structure ScanEntry where
  path : String
  projectName : String
  parentPath : String
  size : String
  sizeBytes : Int
  daysAgo : Int
  isOld : Bool
  deriving DecidableEq, Repr

/-- Outcomes of the two `execAsync` calls the handler issues for one path:
`none` models a rejected promise (non-zero exit or timeout), `some out`
the captured stdout. -/
structure ProbeOutcome where
  du : Option String
  stat : Option String
  deriving DecidableEq, Repr

/-- `nmPath.replace(/\/node_modules$/, "")`. -/
def stripNodeModulesSuffix (p : String) : String :=
  if listIsSuffixOf "/node_modules".data p.data then
    String.mk (p.data.take (p.data.length - 13))
  else p

/-- `parentPath.split("/").pop()` (no `Unknown` fallback in the handler). -/
def lastPathSegment (s : String) : String :=
  String.mk ((splitChars '/' s.data).getLastD [])

/-- The per-path async closure of the `scan-nodemodules` handler: `du -sk`
first, then `stat -f "%a"`; any rejected probe hits the `catch` and yields
`null` (here `none`).  On success the `ScanEntry` is assembled: size in KB
times 1024, days since last access (unguarded floor — see `scanDaysAgo`),
staleness at the fixed threshold 14. -/
def probeOne (nowMs : Int) (nmPath : String) (o : ProbeOutcome) :
    Option ScanEntry :=
  match o.du with
  | none => none
  | some sizeOut =>
    match o.stat with
    | none => none
    | some statOut =>
      let sizeKB := jsParseIntOrZero (firstToken sizeOut)
      let lastAccessTimestamp := jsParseIntOrZero (String.mk (trimChars statOut.data))
      let daysAgo := scanDaysAgo nowMs lastAccessTimestamp
      let parentPath := stripNodeModulesSuffix nmPath
      some
        { path := nmPath
          projectName := lastPathSegment parentPath
          parentPath := parentPath
          size := formatBytes (sizeKB * 1024)
          sizeBytes := sizeKB * 1024
          daysAgo := daysAgo
          isOld := decide (14 < daysAgo) }

/-- `results.filter(Boolean)`: the per-path probe results with the `null`
entries removed. -/
def scanProbeResults (nowMs : Int) (found : List String)
    (oracle : String → ProbeOutcome) : List ScanEntry :=
  (found.map (fun p => probeOne nowMs p (oracle p))).filterMap id

/-- The sort order of `.sort((a, b) => b.sizeBytes - a.sizeBytes)`:
non-increasing `sizeBytes`. -/
def entryGE (a b : ScanEntry) : Prop := b.sizeBytes ≤ a.sizeBytes

instance : DecidableRel entryGE := fun a b =>
  inferInstanceAs (Decidable (b.sizeBytes ≤ a.sizeBytes))

instance : IsTotal ScanEntry entryGE :=
  ⟨fun a b => le_total b.sizeBytes a.sizeBytes⟩

instance : IsTrans ScanEntry entryGE :=
  ⟨fun _ _ _ h₁ h₂ => le_trans h₂ h₁⟩

/-- The successful `scan-nodemodules` response. -/
structure ScanResponse where
  success : Bool
  nodeModules : List ScanEntry
  total : String
  count : Nat
  oldCount : Nat
  deriving Repr

/-- Assembly of the `scan-nodemodules` response after the probe fan-out:
filter the `null`s, sort by size (largest first; JS `Array.sort` with a
consistent comparator is a stable sort, modelled by insertion sort), sum
the sizes, count the stale entries. -/
def scanNodemodules (nowMs : Int) (found : List String)
    (oracle : String → ProbeOutcome) : ScanResponse :=
  let validResults :=
    (scanProbeResults nowMs found oracle).insertionSort entryGE
  let totalBytes : Int :=
    validResults.foldl (fun sum r => sum + r.sizeBytes) 0
  let oldCount := (validResults.filter (fun r => r.isOld)).length
  { success := true
    nodeModules := validResults
    total := formatBytes totalBytes
    count := validResults.length
    oldCount := oldCount }

/-! ## Disk-Stats Cache (`getDiskStats` and the `cache` slot) -/

/-- The disk snapshot the cache stores (`total`/`available` in GB and
`usedPercent`, all `toFixed(0)` strings in the source; their construction
from the raw `si.fsSize()` record is part of the probe outcome here). -/
structure DiskData where
  total : String
  available : String
  usedPercent : String
  deriving DecidableEq, Repr

/-- The all-zero default returned when no data is available. -/
def zeroDisk : DiskData := { total := "0", available := "0", usedPercent := "0" }

/-- The process-wide cache slot: `cache.disk` (initially `null`) and
`cache.diskTimestamp` (initially `0`), epoch milliseconds. -/
structure DiskCache where
  disk : Option DiskData
  diskTimestamp : Int
  deriving DecidableEq, Repr

/-- `cache.DISK_TTL` (30 s). -/
def DISK_TTL : Int := 30000

/-- Outcome of one `si.fsSize()` probe: the constructed snapshot, a
successful call with no usable disk entry (`!mainDisk`), or a thrown
error. -/
inductive DiskProbeResult where
  | ok (d : DiskData)
  | noMainDisk
  | threw
  deriving DecidableEq, Repr

/-- The probing arm of `getDiskStats` (reached when the cache is not
fresh): on success cache and return the snapshot; with no usable disk
return zeros without caching; on a thrown error return the previously
cached snapshot if any (`cache.disk || zeros`), leaving the cache
untouched. -/
def getDiskStatsProbe (c : DiskCache) (nowMs : Int) (pr : DiskProbeResult) :
    DiskData × DiskCache × Bool :=
  match pr with
  | .ok d => (d, { disk := some d, diskTimestamp := nowMs }, true)
  | .noMainDisk => (zeroDisk, c, true)
  | .threw => (c.disk.getD zeroDisk, c, true)

/-- `getDiskStats`: serve the cached snapshot without probing while
`cache.disk` is set and younger than the TTL, else probe.  The `Bool`
reports whether an underlying probe was issued. -/
def getDiskStats (c : DiskCache) (nowMs : Int) (pr : DiskProbeResult) :
    DiskData × DiskCache × Bool :=
  match c.disk with
  | some d =>
    if nowMs - c.diskTimestamp < DISK_TTL then (d, c, false)
    else getDiskStatsProbe c nowMs pr
  | none => getDiskStatsProbe c nowMs pr

/-- The invalidation every successful deletion performs:
`cache.diskTimestamp = 0`. -/
def invalidateDiskCache (c : DiskCache) : DiskCache :=
  { c with diskTimestamp := 0 }

/-! ## Cleanup Executor -/

/-- The `{success, error?}` objects the deletion handlers return. -/
structure OpResult where
  success : Bool
  error : Option String
  deriving DecidableEq, Repr

/-- The `delete-nodemodule` handler.  The `rm -rf` probe outcome is the
`Except` argument (`error msg` = rejected with message `msg`); the `Nat`
counts the recursive-delete probes issued.  Validation
(`!nmPath || !nmPath.includes("node_modules")`) happens before any probe;
on probe success the disk cache is invalidated, on probe failure it is
left untouched. -/
def deleteNodemodule (nmPath : String) (c : DiskCache)
    (probe : Except String Unit) : OpResult × DiskCache × Nat :=
  if nmPath.data.isEmpty || !jsIncludes nmPath "node_modules" then
    ({ success := false, error := some "Invalid path" }, c, 0)
  else
    match probe with
    | .ok _ => ({ success := true, error := none }, invalidateDiskCache c, 1)
    | .error msg => ({ success := false, error := some msg }, c, 1)

/-- The per-path guard of the `delete-old-nodemodules` loop
(`!nmPath || !nmPath.includes("node_modules")` skips the path). -/
def deleteGuard (p : String) : Bool :=
  !p.data.isEmpty && jsIncludes p "node_modules"

/-- Whether the `rm -rf` probe for `p` resolves. -/
def probeResolves (probe : String → Except String Unit) (p : String) : Bool :=
  match probe p with
  | .ok _ => true
  | .error _ => false

/-- The loop body of `delete-old-nodemodules`: invalid paths are skipped
by `continue` (neither counter moves), a resolved `rm -rf` increments
`deleted`, a rejected one increments `failed`; the loop never aborts
early. -/
def deleteOldLoop (probe : String → Except String Unit) :
    List String → Nat → Nat → Nat × Nat
  | [], deleted, failed => (deleted, failed)
  | p :: rest, deleted, failed =>
    if deleteGuard p then
      match probe p with
      | .ok _ => deleteOldLoop probe rest (deleted + 1) failed
      | .error _ => deleteOldLoop probe rest deleted (failed + 1)
    else deleteOldLoop probe rest deleted failed

/-- The `{success, deleted, failed}` object of `delete-old-nodemodules`. -/
structure BatchResult where
  success : Bool
  deleted : Nat
  failed : Nat
  deriving DecidableEq, Repr

/-- The `delete-old-nodemodules` handler (array input assumed, as the
non-array guard only concerns malformed IPC calls): run the loop, then
invalidate the disk cache unconditionally. -/
def deleteOldNodemodules (paths : List String) (c : DiskCache)
    (probe : String → Except String Unit) : BatchResult × DiskCache :=
  let counts := deleteOldLoop probe paths 0 0
  ({ success := true, deleted := counts.1, failed := counts.2 },
    invalidateDiskCache c)

/-! ## Concrete oracles and entries used by witnesses and counterexamples -/

/-- The probe oracle in which every `execAsync` call rejects. -/
def rejectedProbes : String → ProbeOutcome :=
  fun _ => { du := none, stat := none }

/-- The delete oracle in which every `rm -rf` resolves. -/
def alwaysOkDelete : String → Except String Unit := fun _ => Except.ok ()

/-- The entry the scan handler assembles for `/a/node_modules` at
`now = 15` days after the epoch with `du` output `"8"` and `stat` output
`"86400"` (one day after the epoch): exactly 14 days old. -/
def scanEntryDay14 : ScanEntry :=
  { path := "/a/node_modules", projectName := "a", parentPath := "/a",
    size := "8KB", sizeBytes := 8192, daysAgo := 14, isOld := false }

/-- The entry assembled in the same scenario when the `stat` output is
unparseable (the `0` sentinel): 15 days old. -/
def scanEntryDay15 : ScanEntry :=
  { path := "/a/node_modules", projectName := "a", parentPath := "/a",
    size := "8KB", sizeBytes := 8192, daysAgo := 15, isOld := true }

/-! ## Helper lemmas -/

/-- A string containing the `node_modules` marker is nonempty, so the
`!nmPath` guard is subsumed by the `includes` guard on strings. -/
lemma includes_marker_nonempty (p : String)
    (h : jsIncludes p "node_modules" = true) : p.data.isEmpty = false := by
  cases hd : p.data with
  | nil =>
    exfalso
    unfold jsIncludes at h
    rw [hd] at h
    exact absurd h (by decide)
  | cons a t => rfl

/-- The three possible outcomes of one dedup iteration. -/
lemma dedupStep_cases (seen : List String) (p : String) :
    dedupStep seen p = seen ∨
      (dedupStep seen p = seen ++ [p] ∧ p ∉ seen ∧
        (seen.any fun s => jsStartsWith p (s ++ "/")) = false) := by
  unfold dedupStep
  split
  next => exact Or.inl rfl
  next hc =>
    split
    next => exact Or.inl rfl
    next ha =>
      right
      refine ⟨rfl, ?_, by simpa using ha⟩
      intro hm
      exact hc (List.elem_eq_true_of_mem hm)

/-- Invariant of the dedup fold: the accumulator stays duplicate-free, no
kept path is a strict segment-extension of an earlier-kept path, and every
kept path comes from the accumulator or the input. -/
lemma dedup_foldl_invariant (ps : List String) :
    ∀ acc : List String, acc.Nodup →
      List.Pairwise (fun a b => jsStartsWith b (a ++ "/") = false) acc →
      (ps.foldl dedupStep acc).Nodup ∧
        List.Pairwise (fun a b => jsStartsWith b (a ++ "/") = false)
          (ps.foldl dedupStep acc) ∧
        ∀ x ∈ ps.foldl dedupStep acc, x ∈ acc ∨ x ∈ ps := by
  induction ps with
  | nil =>
    intro acc h1 h2
    exact ⟨h1, h2, fun x hx => Or.inl hx⟩
  | cons p rest ih =>
    intro acc h1 h2
    rw [List.foldl_cons]
    rcases dedupStep_cases acc p with heq | ⟨heq, hnm, hany⟩
    · rw [heq]
      obtain ⟨n1, n2, n3⟩ := ih acc h1 h2
      exact ⟨n1, n2, fun x hx => (n3 x hx).imp id (List.mem_cons_of_mem p)⟩
    · rw [heq]
      have hnd : (acc ++ [p]).Nodup := by
        rw [List.nodup_append]
        exact ⟨h1, List.nodup_singleton p,
          fun a ha hp => hnm ((List.mem_singleton.mp hp) ▸ ha)⟩
      have hpw : List.Pairwise (fun a b => jsStartsWith b (a ++ "/") = false)
          (acc ++ [p]) := by
        rw [List.pairwise_append]
        refine ⟨h2, List.pairwise_singleton _ p, fun a ha b hb => ?_⟩
        rw [List.mem_singleton.mp hb]
        cases hsw : jsStartsWith p (a ++ "/") with
        | false => rfl
        | true =>
          exfalso
          have : (acc.any fun s => jsStartsWith p (s ++ "/")) = true :=
            List.any_eq_true.mpr ⟨a, ha, hsw⟩
          rw [hany] at this
          exact Bool.noConfusion this
      obtain ⟨n1, n2, n3⟩ := ih (acc ++ [p]) hnd hpw
      refine ⟨n1, n2, fun x hx => ?_⟩
      rcases n3 x hx with hx1 | hx2
      · rcases List.mem_append.mp hx1 with h | h
        · exact Or.inl h
        · exact Or.inr (List.mem_singleton.mp h ▸ List.mem_cons_self p rest)
      · exact Or.inr (List.mem_cons_of_mem p hx2)

/-- A per-path probe result survives `filter(Boolean)` exactly when both
probes resolved. -/
lemma probeOne_isSome (nowMs : Int) (p : String) (o : ProbeOutcome) :
    (probeOne nowMs p o).isSome = (o.du.isSome && o.stat.isSome) := by
  obtain ⟨du, st⟩ := o
  cases du <;> cases st <;> simp [probeOne]

/-- Length of a `filterMap`: one output element per input whose image is
`some`. -/
lemma length_filterMap_countP {α β : Type} (f : α → Option β) (l : List α) :
    (l.filterMap f).length = l.countP (fun a => (f a).isSome) := by
  induction l with
  | nil => rfl
  | cons a t ih =>
    cases h : f a <;> simp [List.filterMap_cons, List.countP_cons, h, ih]

/-- Length of the assembled probe results: one entry per path whose two
probes both resolved. -/
lemma scanProbeResults_length (nowMs : Int) (found : List String)
    (oracle : String → ProbeOutcome) :
    (scanProbeResults nowMs found oracle).length =
      found.countP (fun p => (oracle p).du.isSome && (oracle p).stat.isSome) := by
  unfold scanProbeResults
  rw [List.filterMap_map]
  rw [show (id ∘ fun p => probeOne nowMs p (oracle p)) =
      (fun p => probeOne nowMs p (oracle p)) from rfl]
  rw [length_filterMap_countP]
  exact List.countP_congr fun p _ => by rw [probeOne_isSome nowMs p (oracle p)]

/-- Accumulator form of the batch-deletion loop: each valid path bumps
exactly one of the two counters according to its probe outcome; invalid
paths bump neither; the loop runs to the end of the list. -/
lemma deleteOldLoop_spec (probe : String → Except String Unit)
    (paths : List String) :
    ∀ d f : Nat, deleteOldLoop probe paths d f =
      (d + paths.countP (fun p => deleteGuard p && probeResolves probe p),
        f + paths.countP (fun p => deleteGuard p && !probeResolves probe p)) := by
  induction paths with
  | nil => intro d f; simp [deleteOldLoop]
  | cons p rest ih =>
    intro d f
    by_cases hg : deleteGuard p = true
    · cases hp : probe p with
      | ok u =>
        have hr : probeResolves probe p = true := by
          simp [probeResolves, hp]
        simp only [deleteOldLoop, hg, if_true, hp, ih, List.countP_cons, hr]
        rw [Prod.mk.injEq]
        refine ⟨?_, ?_⟩ <;> (simp; try omega)
      | error m =>
        have hr : probeResolves probe p = false := by
          simp [probeResolves, hp]
        simp only [deleteOldLoop, hg, if_true, hp, ih, List.countP_cons, hr]
        rw [Prod.mk.injEq]
        refine ⟨?_, ?_⟩ <;> (simp; try omega)
    · have hg2 : deleteGuard p = false := by simpa using hg
      simp only [deleteOldLoop, hg2, ih, List.countP_cons]
      simp

/-- Per-path case split: valid paths are partitioned by probe outcome. -/
lemma countP_guard_split (probe : String → Except String Unit)
    (paths : List String) :
    paths.countP (fun p => deleteGuard p && probeResolves probe p) +
      paths.countP (fun p => deleteGuard p && !probeResolves probe p) =
      paths.countP deleteGuard := by
  induction paths with
  | nil => rfl
  | cons p rest ih =>
    simp only [List.countP_cons]
    cases hg : deleteGuard p <;> cases hr : probeResolves probe p <;>
      simp [hg, hr] <;> omega

/-- A successful sum fold over entries equals the sum of the mapped
sizes. -/
lemma foldl_add_sizeBytes (l : List ScanEntry) :
    ∀ a : Int, l.foldl (fun sum r => sum + r.sizeBytes) a =
      a + (l.map ScanEntry.sizeBytes).sum := by
  induction l with
  | nil => intro a; simp
  | cons e t ih => intro a; simp [ih, add_assoc]

/-- When `getDiskStats` issues a probe that succeeds with snapshot `d`, the
new cache state is exactly `⟨some d, nowMs⟩`. -/
lemma getDiskStats_ok_state (c : DiskCache) (nowMs : Int) (d : DiskData)
    (h : (getDiskStats c nowMs (DiskProbeResult.ok d)).2.2 = true) :
    (getDiskStats c nowMs (DiskProbeResult.ok d)).2.1 =
      { disk := some d, diskTimestamp := nowMs } := by
  unfold getDiskStats at h ⊢
  cases hc : c.disk with
  | none => rfl
  | some d0 =>
    rw [hc] at h
    dsimp only at h ⊢
    by_cases hf : nowMs - c.diskTimestamp < DISK_TTL
    · rw [if_pos hf] at h
      exact Bool.noConfusion h
    · rw [if_neg hf]
      rfl

/-! ## Claim theorems -/

/-- C1: the single-path deletion refuses with the `Invalid path` error,
mutating nothing and issuing no destructive probe, whenever the path does
not contain the `node_modules` marker; every accepted path issues exactly
one recursive-delete probe. -/
theorem deleteOne_safety (p : String) (c : DiskCache)
    (pr : Except String Unit) :
    (jsIncludes p "node_modules" = false →
      deleteNodemodule p c pr =
        ({ success := false, error := some "Invalid path" }, c, 0)) ∧
    (jsIncludes p "node_modules" = true →
      (deleteNodemodule p c pr).2.2 = 1) := by
  constructor
  · intro h
    unfold deleteNodemodule
    rw [h]
    simp
  · intro h
    unfold deleteNodemodule
    rw [h, includes_marker_nonempty p h]
    cases pr <;> simp

/-- C1 witness: `/etc/passwd` is refused with no probe; `/a/node_modules`
issues exactly one probe. -/
theorem deleteOne_safety_witness :
    deleteNodemodule "/etc/passwd" { disk := none, diskTimestamp := 0 }
        (Except.ok ()) =
      ({ success := false, error := some "Invalid path" },
        { disk := none, diskTimestamp := 0 }, 0) ∧
    (deleteNodemodule "/a/node_modules" { disk := none, diskTimestamp := 0 }
        (Except.ok ())).2.2 = 1 :=
  ⟨(deleteOne_safety "/etc/passwd" { disk := none, diskTimestamp := 0 }
      (Except.ok ())).1 (by decide),
    (deleteOne_safety "/a/node_modules" { disk := none, diskTimestamp := 0 }
      (Except.ok ())).2 (by decide)⟩

/-- C2 counterexample: the dedup pass is order-dependent.  With the nested
path first, both `/a/node_modules/x/node_modules` and `/a/node_modules`
are kept (not the minimal non-nested set the claim demands); with the
parent first, only `/a/node_modules` survives — so the result differs
between the two orderings of the same multiset. -/
theorem discover_dedup_order_cex :
    dedupPaths ["/a/node_modules/x/node_modules", "/a/node_modules"] =
        ["/a/node_modules/x/node_modules", "/a/node_modules"] ∧
    dedupPaths ["/a/node_modules", "/a/node_modules/x/node_modules"] =
        ["/a/node_modules"] := by
  decide

/-- C2 (amended): the dedup pass returns a duplicate-free selection of the
input in which no kept path is a strict segment-extension of an
earlier-kept path; when ancestors precede descendants (as in the claim's
example with `/a/node_modules` first) exactly the minimal non-nested set
survives, but in general the result depends on the input ordering. -/
theorem discover_dedup_amended :
    (∀ ps : List String,
      (dedupPaths ps).Nodup ∧
      List.Pairwise (fun a b => jsStartsWith b (a ++ "/") = false)
        (dedupPaths ps) ∧
      ∀ x ∈ dedupPaths ps, x ∈ ps) ∧
    dedupPaths ["/a/node_modules", "/a/node_modules/x/node_modules"] =
      ["/a/node_modules"] := by
  constructor
  · intro ps
    obtain ⟨n1, n2, n3⟩ :=
      dedup_foldl_invariant ps [] List.nodup_nil List.Pairwise.nil
    exact ⟨n1, n2, fun x hx =>
      ((n3 x hx).resolve_left (List.not_mem_nil x))⟩
  · decide

/-- C3 counterexample: a path whose probes reject is dropped from the
probe results (`null` filtered out), so `probe(paths)` does not return
`|paths|` entries. -/
theorem probe_coverage_cex :
    (scanProbeResults 0 ["/a/node_modules"] rejectedProbes).length ≠
      ["/a/node_modules"].length := by
  decide

/-- C3 (amended): the probing step returns exactly one entry per input
path whose two probe commands both resolved — a path with a rejected
(thrown) probe is dropped, not kept; an entry whose size probe resolved
with unparseable output is kept with `sizeBytes` equal to 1024 times the
parsed kilobyte count, i.e. `0` when the output parses to `0`. -/
theorem probe_coverage_amended :
    (∀ (nowMs : Int) (found : List String) (oracle : String → ProbeOutcome),
      (scanProbeResults nowMs found oracle).length =
        found.countP
          (fun p => (oracle p).du.isSome && (oracle p).stat.isSome)) ∧
    (∀ (nowMs : Int) (p s t : String),
      (probeOne nowMs p { du := some s, stat := some t }).map
          ScanEntry.sizeBytes =
        some (jsParseIntOrZero (firstToken s) * 1024)) :=
  ⟨scanProbeResults_length, fun _ _ _ _ => rfl⟩

/-- C4 counterexample: a path rejected by the validity check is skipped by
`continue` without touching either counter, so for the one-element input
`["/etc/passwd"]` the handler returns `deleted = 0` and `failed = 0`, and
`deletedCount + failedCount` is not the number of input paths. -/
theorem batch_accounting_cex :
    (deleteOldNodemodules ["/etc/passwd"] { disk := none, diskTimestamp := 0 }
          alwaysOkDelete).1.deleted +
      (deleteOldNodemodules ["/etc/passwd"] { disk := none, diskTimestamp := 0 }
          alwaysOkDelete).1.failed ≠
      ["/etc/passwd"].length := by
  decide

/-- C4 (amended): in the batch deletion, a path rejected by the validity
check is skipped without incrementing either counter; every valid path
whose delete probe resolves increments `deleted` and every valid path
whose probe rejects increments `failed`, with no early abort, so
`deleted + failed` equals the number of VALID input paths (those
containing the `node_modules` marker), not the number of all inputs. -/
theorem batch_accounting_amended :
    ∀ (paths : List String) (c : DiskCache)
      (probe : String → Except String Unit),
      (deleteOldNodemodules paths c probe).1.deleted =
          paths.countP (fun p => deleteGuard p && probeResolves probe p) ∧
        (deleteOldNodemodules paths c probe).1.failed =
          paths.countP (fun p => deleteGuard p && !probeResolves probe p) ∧
        (deleteOldNodemodules paths c probe).1.deleted +
            (deleteOldNodemodules paths c probe).1.failed =
          paths.countP deleteGuard := by
  intro paths c probe
  have h := deleteOldLoop_spec probe paths 0 0
  unfold deleteOldNodemodules
  rw [h]
  refine ⟨by simp, by simp, ?_⟩
  simpa using countP_guard_split probe paths

/-- C5 (code bug): the scan handler's inline days-ago computation omits
the `0`-sentinel guard that the extracted-and-tested utility
`calculateDaysAgo` applies, so an entry whose `stat` probe resolves with
unparseable output (`lastAccessTimestamp = 0`) is assigned the day count
since the Unix epoch — `20373` at `now = 1760227200000` ms (2025-10-12) —
while `calculateDaysAgo`, whose unit test pins `calculateDaysAgo(0) = 0`,
returns `0` as the claim states. -/
theorem scan_daysAgo_sentinel_bug :
    (probeOne 1760227200000 "/a/node_modules"
        { du := some "8 /a/node_modules", stat := some "" }).map
      ScanEntry.daysAgo = some 20373 ∧
    calculateDaysAgo 1760227200000 0 = 0 := by
  decide

/-- C6: every entry the scan assembles is stale exactly when its day count
strictly exceeds 14; in particular a 14-day-old entry is not stale and a
15-day-old entry is. -/
theorem staleness_boundary (nowMs : Int) (p : String) (o : ProbeOutcome)
    (e : ScanEntry) (h : probeOne nowMs p o = some e) :
    (e.isOld = true ↔ 14 < e.daysAgo) ∧
    (e.daysAgo = 14 → e.isOld = false) ∧
    (e.daysAgo = 15 → e.isOld = true) := by
  obtain ⟨du, st⟩ := o
  cases du with
  | none => exact absurd h (by simp [probeOne])
  | some s =>
    cases st with
    | none => exact absurd h (by simp [probeOne])
    | some t =>
      simp only [probeOne, Option.some.injEq] at h
      subst h
      refine ⟨by simp, ?_, ?_⟩
      · intro h14
        simp only [ScanEntry.daysAgo] at h14
        simp [h14]
      · intro h15
        simp only [ScanEntry.daysAgo] at h15
        simp [h15]

/-- C6 witness: the boundary instances at concrete probe outputs. -/
theorem staleness_boundary_witness :
    scanEntryDay14.isOld = false ∧ scanEntryDay15.isOld = true :=
  ⟨(staleness_boundary (86400000 * 15) "/a/node_modules"
      { du := some "8", stat := some "86400" } scanEntryDay14 (by decide)).2.1
      (by decide),
    (staleness_boundary (86400000 * 15) "/a/node_modules"
      { du := some "8", stat := some "" } scanEntryDay15 (by decide)).2.2
      (by decide)⟩

/-- C7: the disk-stats cache TTL machine.  (a) While the cached snapshot
exists and is younger than the 30 s TTL, a read returns it, changes
nothing and issues no probe — hence two reads within the TTL window issue
exactly one probe, proved as (b): after a read whose probe ran and
succeeded, a second read within the TTL issues none.  (c) After
`invalidate()` resets the timestamp, the next read issues a probe (for any
realistic clock value `nowMs ≥ TTL`).  (d) A stale read whose probe throws
returns the previously cached snapshot if one exists, else the all-zero
default, leaving the cache untouched. -/
theorem disk_cache_ttl_machine :
    (∀ (c : DiskCache) (nowMs : Int) (pr : DiskProbeResult) (d : DiskData),
      c.disk = some d → nowMs - c.diskTimestamp < DISK_TTL →
        getDiskStats c nowMs pr = (d, c, false)) ∧
    (∀ (c : DiskCache) (t0 t1 : Int) (d : DiskData) (pr2 : DiskProbeResult),
      (getDiskStats c t0 (DiskProbeResult.ok d)).2.2 = true →
      t1 - t0 < DISK_TTL →
        getDiskStats (getDiskStats c t0 (DiskProbeResult.ok d)).2.1 t1 pr2 =
          (d, (getDiskStats c t0 (DiskProbeResult.ok d)).2.1, false)) ∧
    (∀ (c : DiskCache) (nowMs : Int) (pr : DiskProbeResult),
      DISK_TTL ≤ nowMs →
        (getDiskStats (invalidateDiskCache c) nowMs pr).2.2 = true) ∧
    (∀ (c : DiskCache) (nowMs : Int),
      c.disk = none ∨ DISK_TTL ≤ nowMs - c.diskTimestamp →
        getDiskStats c nowMs DiskProbeResult.threw =
          (c.disk.getD zeroDisk, c, true)) := by
  refine ⟨?_, ?_, ?_, ?_⟩
  · intro c nowMs pr d hd hf
    obtain ⟨cd, ct⟩ := c
    dsimp only at hd hf
    subst hd
    unfold getDiskStats
    dsimp only
    rw [if_pos hf]
  · intro c t0 t1 d pr2 hp hwin
    rw [getDiskStats_ok_state c t0 d hp]
    unfold getDiskStats
    dsimp only
    rw [if_pos hwin]
  · intro c nowMs pr hge
    obtain ⟨cd, ct⟩ := c
    unfold invalidateDiskCache getDiskStats
    dsimp only
    cases cd with
    | none => cases pr <;> rfl
    | some d0 =>
      dsimp only
      rw [if_neg (by omega)]
      cases pr <;> rfl
  · intro c nowMs hd
    obtain ⟨cd, ct⟩ := c
    cases cd with
    | none =>
      unfold getDiskStats getDiskStatsProbe
      rfl
    | some d0 =>
      rcases hd with hnone | hstale
      · exact absurd hnone (by simp)
      · unfold getDiskStats
        dsimp only at hstale ⊢
        rw [if_neg (by omega)]
        unfold getDiskStatsProbe
        rfl

/-- C7 witness: the four clauses at concrete states — a fresh read serving
the cache without probing, a cold read followed within the TTL by a
non-probing read, a probing read right after invalidation, and a stale
failing read serving the old snapshot. -/
theorem disk_cache_ttl_machine_witness :
    getDiskStats { disk := some zeroDisk, diskTimestamp := 100 } 130
        DiskProbeResult.threw =
      (zeroDisk, { disk := some zeroDisk, diskTimestamp := 100 }, false) ∧
    getDiskStats (getDiskStats { disk := none, diskTimestamp := 0 } 1000
          (DiskProbeResult.ok zeroDisk)).2.1 1500 DiskProbeResult.threw =
      (zeroDisk, (getDiskStats { disk := none, diskTimestamp := 0 } 1000
          (DiskProbeResult.ok zeroDisk)).2.1, false) ∧
    (getDiskStats (invalidateDiskCache
        { disk := some zeroDisk, diskTimestamp := 999999 }) 30000
        DiskProbeResult.threw).2.2 = true ∧
    getDiskStats { disk := some zeroDisk, diskTimestamp := 0 } 30000
        DiskProbeResult.threw =
      (zeroDisk, { disk := some zeroDisk, diskTimestamp := 0 }, true) :=
  ⟨disk_cache_ttl_machine.1 { disk := some zeroDisk, diskTimestamp := 100 }
      130 DiskProbeResult.threw zeroDisk rfl (by decide),
    disk_cache_ttl_machine.2.1 { disk := none, diskTimestamp := 0 } 1000 1500
      zeroDisk DiskProbeResult.threw (by decide) (by decide),
    disk_cache_ttl_machine.2.2.1 { disk := some zeroDisk, diskTimestamp := 999999 }
      30000 DiskProbeResult.threw (by decide),
    disk_cache_ttl_machine.2.2.2 { disk := some zeroDisk, diskTimestamp := 0 }
      30000 (Or.inr (by decide))⟩

/-- C8: on an accepted path, `deleteOne` invalidates the disk cache
(timestamp forced to `0`) exactly when the `rm -rf` probe succeeds; when
the probe fails it returns the error carrying the underlying message and
leaves the cache — timestamp included — unchanged. -/
theorem deleteOne_cache_frame (p : String) (c : DiskCache) (msg : String)
    (h : jsIncludes p "node_modules" = true) :
    deleteNodemodule p c (Except.ok ()) =
      ({ success := true, error := none },
        { disk := c.disk, diskTimestamp := 0 }, 1) ∧
    deleteNodemodule p c (Except.error msg) =
      ({ success := false, error := some msg }, c, 1) := by
  unfold deleteNodemodule
  rw [h, includes_marker_nonempty p h]
  constructor <;> simp [invalidateDiskCache]

/-- C8 witness: both probe outcomes for `/a/node_modules` at a concrete
cache state. -/
theorem deleteOne_cache_frame_witness :
    deleteNodemodule "/a/node_modules"
        { disk := some zeroDisk, diskTimestamp := 777 } (Except.ok ()) =
      ({ success := true, error := none },
        { disk := some zeroDisk, diskTimestamp := 0 }, 1) ∧
    deleteNodemodule "/a/node_modules"
        { disk := some zeroDisk, diskTimestamp := 777 } (Except.error "boom") =
      ({ success := false, error := some "boom" },
        { disk := some zeroDisk, diskTimestamp := 777 }, 1) :=
  ⟨(deleteOne_cache_frame "/a/node_modules"
      { disk := some zeroDisk, diskTimestamp := 777 } "boom" (by decide)).1,
    (deleteOne_cache_frame "/a/node_modules"
      { disk := some zeroDisk, diskTimestamp := 777 } "boom" (by decide)).2⟩

/-- C9: the byte count `1.5 * 1024 ^ 3 = 1610612736` renders as `"1.5GB"`
and parsing `"1.5GB"` returns exactly that byte count — an exact
round-trip for this value. -/
theorem size_format_roundtrip :
    ((3 / 2 : ℚ) * 1024 ^ 3 = 1610612736) ∧
    formatBytes 1610612736 = "1.5GB" ∧
    parseSizeToBytes "1.5GB" = some ((3 / 2 : ℚ) * 1024 ^ 3) := by
  refine ⟨by norm_num, by decide, ?_⟩
  have h : matchSizeRegex "1.5GB".data = some (['1', '.', '5'], some 'G') := by
    decide
  have h2 : jsParseFloatParts ['1', '.', '5'] = some (1, 5, 1) := by decide
  have h3 : unitMultiplier (some 'G') = 1024 ^ 3 := rfl
  unfold parseSizeToBytes
  rw [h]
  simp only [h2, h3, Option.some.injEq]
  norm_num

/-- C10: a successful scan's entry list is sorted by non-increasing
`sizeBytes`, its reported total is the rendering of the sum of the
returned entries' sizes, and its count is their number. -/
theorem scan_sorted_totals (nowMs : Int) (found : List String)
    (oracle : String → ProbeOutcome) :
    List.Sorted entryGE (scanNodemodules nowMs found oracle).nodeModules ∧
    (scanNodemodules nowMs found oracle).total =
      formatBytes (((scanNodemodules nowMs found oracle).nodeModules.map
        ScanEntry.sizeBytes).sum) ∧
    (scanNodemodules nowMs found oracle).count =
      (scanNodemodules nowMs found oracle).nodeModules.length := by
  refine ⟨?_, ?_, rfl⟩
  · exact List.sorted_insertionSort entryGE _
  · show formatBytes
        (((scanProbeResults nowMs found oracle).insertionSort entryGE).foldl
          (fun sum r => sum + r.sizeBytes) 0) =
      formatBytes
        ((((scanProbeResults nowMs found oracle).insertionSort entryGE).map
          ScanEntry.sizeBytes).sum)
    rw [foldl_add_sizeBytes]
    norm_num
